import Mathlib

/-!
Shallow embedding of `manim/event_handler/event_dispatcher.py`
(class `EventDispatcher`), together with the auxiliary types it imports
(`EventType`, `EventListner`), and theorems about the dispatch protocol.

Python values are modelled as follows: numpy point arrays become triples of
integers (the dispatcher only stores points and hands them to the external
hit-test capability, so the carrier type is opaque to it); the Python `set`
of pressed keys becomes a `Finset String`; the dict of listener sequences
becomes a function `EventType → List EventListner`; a callback's arbitrary
Python return value becomes `Option PyVal`, where `none` is Python `None`,
`PyVal.pyBool b` is the boolean singleton `b` (so the identity test
`propagate_event is False` is `= some (PyVal.pyBool false)`), and
`PyVal.pyOther n` stands for any other object.  A `KeyError` raised by a
missing payload field becomes `Except.error ()`; in the Python code the
failing dict lookup is evaluated before any attribute assignment or set
mutation, so on error no dispatcher state has been touched, which the
embedding reflects by returning no state in the error case.

Mobjects and callbacks are external capabilities: they are represented by
numeric identities, and an environment `Env` gives each mobject identity
its hit-test predicate and each callback identity its behaviour.
-/

set_option autoImplicit false

/-- Modelled from the spec: the file `manim/event_handler/event_type.py` is
not among the sources; the spec describes a closed enumeration of six event
categories, each tagged with a coarse class (`mouse*` or `key*`) carried by
its string value, which `dispatch` inspects with a string prefix test.  The
member names are those used by `event_dispatcher.py`. -/
inductive EventType where
  | MouseMotionEvent
  | MousePressEvent
  | MouseReleaseEvent
  | MouseDragEvent
  | KeyPressEvent
  | KeyReleaseEvent
deriving DecidableEq, Repr

/-- Modelled from the spec: the string value of each enumeration member,
tagged `mouse*` or `key*` according to its coarse class. -/
def EventType.value : EventType → String
  | .MouseMotionEvent => "mouse_motion_event"
  | .MousePressEvent => "mouse_press_event"
  | .MouseReleaseEvent => "mouse_release_event"
  | .MouseDragEvent => "mouse_drag_event"
  | .KeyPressEvent => "key_press_event"
  | .KeyReleaseEvent => "key_release_event"

/-- The six members, used to total the registry as
`get_listeners_count` does. -/
def EventType.all : List EventType :=
  [.MouseMotionEvent, .MousePressEvent, .MouseReleaseEvent,
   .MouseDragEvent, .KeyPressEvent, .KeyReleaseEvent]

/-- A pointer position (numpy `array((x, y, z))` in the source; the
dispatcher never computes with coordinates, it only stores points and
passes them to the hit-test capability). -/
abbrev Point := Int × Int × Int

/-- A Python value returned by a callback, as far as the dispatcher can
distinguish it: the singletons `True`/`False` (identity-tested by
`propagate_event is False`), or any other non-`None` object. -/
inductive PyVal where
  | pyBool : Bool → PyVal
  | pyOther : Nat → PyVal
deriving DecidableEq, Repr

/-- Modelled from the spec: the file
`manim/event_handler/event_listener.py` is not among the sources; the spec
describes a listener entry as a value record binding one event category to
one target object and one callback, compared by identity of
target+callback+category.  Targets and callbacks are capabilities, kept
here as numeric identities interpreted by an `Env`. -/
structure EventListner where
  mobject : Nat
  event_type : EventType
  callback : Nat
deriving DecidableEq, Repr

/-- The keyword payload of a dispatch call; the dispatcher itself reads
only the `point` and `symbol` fields, a missing field raising `KeyError`. -/
structure EventData where
  point : Option Point
  symbol : Option String
deriving DecidableEq, Repr

/-- The external capabilities: each mobject identity's hit-test
`is_point_touching`, and each callback identity's behaviour
`(mobject, event_data) -> value`. -/
structure Env where
  touching : Nat → Point → Bool
  run : Nat → Nat → EventData → Option PyVal

/-- The dispatcher's mutable state: the registry grouped by category, the
last motion point, the last drag point, the held keys, and the drag
capture list. -/
structure EventDispatcher where
  event_listeners : EventType → List EventListner
  mouse_point : Point
  mouse_drag_point : Point
  pressed_keys : Finset String
  draggable_object_listeners : List EventListner

/-- `EventDispatcher.__init__`. -/
def EventDispatcher.init : EventDispatcher where
  event_listeners := fun _ => []
  mouse_point := (0, 0, 0)
  mouse_drag_point := (0, 0, 0)
  pressed_keys := ∅
  draggable_object_listeners := []

/-- `EventDispatcher.add_listener`: append to the sequence of the entry's
own category. -/
def add_listener (s : EventDispatcher) (l : EventListner) : EventDispatcher :=
  { s with event_listeners := fun t =>
      if t = l.event_type then s.event_listeners t ++ [l] else s.event_listeners t }

/-- `EventDispatcher.remove_listener`: `while l in seq: seq.remove(l)`
deletes every occurrence comparing equal to `l` from its category's
sequence; a missing entry leaves the loop unentered (and any error is
swallowed), so the operation is total. -/
def remove_listener (s : EventDispatcher) (l : EventListner) : EventDispatcher :=
  { s with event_listeners := fun t =>
      if t = l.event_type then (s.event_listeners t).filter (fun x => x ≠ l)
      else s.event_listeners t }

/-- Python `str.startswith`, as a character-list test (`String.startsWith`
of the library is byte-position based and does not reduce definitionally;
this form does, and agrees with it on all strings). -/
def strStartsWith (s pre : String) : Bool :=
  pre.data.isPrefixOf s.data

/-- `event_data["point"]`: `KeyError` when absent. -/
def getPoint (data : EventData) : Except Unit Point :=
  match data.point with
  | some p => .ok p
  | none => .error ()

/-- `event_data["symbol"]`: `KeyError` when absent. -/
def getSymbol (data : EventData) : Except Unit String :=
  match data.symbol with
  | some sym => .ok sym
  | none => .error ()

/-- The state-update step at the head of `dispatch` (the `if/elif` chain on
`event_type` before `propagate_event = None`). -/
def stateUpdate (env : Env) (s : EventDispatcher) :
    EventType → EventData → Except Unit EventDispatcher
  | .MouseMotionEvent, data => do
      let p ← getPoint data
      pure { s with mouse_point := p }
  | .MouseDragEvent, data => do
      let p ← getPoint data
      pure { s with mouse_drag_point := p }
  | .KeyPressEvent, data => do
      let sym ← getSymbol data
      pure { s with pressed_keys := insert sym s.pressed_keys }
  | .KeyReleaseEvent, data => do
      let sym ← getSymbol data
      pure { s with pressed_keys := s.pressed_keys.erase sym }
  | .MousePressEvent, _ =>
      pure { s with
        draggable_object_listeners := (s.event_listeners .MouseDragEvent).filter
          (fun l => env.touching l.mobject s.mouse_point) }
  | .MouseReleaseEvent, _ =>
      pure { s with draggable_object_listeners := [] }

/-- The callback loop of the drag and key branches of `dispatch`: every
listener of the list is invoked in order, `propagate_event` is overwritten
by each return value, and a return value that `is False` ends the loop by
returning it.  The result is the list of invoked listeners (for the
theorems below) paired with the final `propagate_event`. -/
def invokeAll (env : Env) (data : EventData) :
    List EventListner → Option PyVal → List EventListner × Option PyVal
  | [], propagate_event => ([], propagate_event)
  | l :: rest, _ =>
      let r := env.run l.callback l.mobject data
      if r = some (PyVal.pyBool false) then ([l], r)
      else
        let p := invokeAll env data rest r
        (l :: p.1, p.2)

/-- The callback loop of the generic mouse branch of `dispatch`: as
`invokeAll`, but a listener is invoked only when its mobject is touching
`mp` (the dispatcher's current `mouse_point`); a skipped listener leaves
`propagate_event` unchanged. -/
def invokeMouse (env : Env) (mp : Point) (data : EventData) :
    List EventListner → Option PyVal → List EventListner × Option PyVal
  | [], propagate_event => ([], propagate_event)
  | l :: rest, propagate_event =>
      if env.touching l.mobject mp then
        let r := env.run l.callback l.mobject data
        if r = some (PyVal.pyBool false) then ([l], r)
        else
          let p := invokeMouse env mp data rest r
          (l :: p.1, p.2)
      else invokeMouse env mp data rest propagate_event

/-- `EventDispatcher.dispatch`: the state update followed by the branch on
`event_type` (the drag branch first, then the `value.startswith` tests).
The returned triple is the new state, the trace of invoked listeners, and
the returned `propagate_event`. -/
def dispatch (env : Env) (s : EventDispatcher) (event_type : EventType)
    (event_data : EventData) :
    Except Unit (EventDispatcher × List EventListner × Option PyVal) := do
  let s1 ← stateUpdate env s event_type event_data
  if event_type = .MouseDragEvent then
    let p := invokeAll env event_data s1.draggable_object_listeners none
    pure (s1, p.1, p.2)
  else if strStartsWith event_type.value "mouse" then
    let p := invokeMouse env s1.mouse_point event_data
      (s1.event_listeners event_type) none
    pure (s1, p.1, p.2)
  else if strStartsWith event_type.value "key" then
    let p := invokeAll env event_data (s1.event_listeners event_type) none
    pure (s1, p.1, p.2)
  else
    pure (s1, [], none)

/-- `EventDispatcher.get_listeners_count`. -/
def get_listeners_count (s : EventDispatcher) : Nat :=
  (EventType.all.map (fun t => (s.event_listeners t).length)).sum

/-- `EventDispatcher.is_key_pressed`. -/
def is_key_pressed (s : EventDispatcher) (symbol : String) : Bool :=
  symbol ∈ s.pressed_keys

/-- The state reached by one dispatch call, the incoming state when the
call raises. -/
def stepState (env : Env) (s : EventDispatcher) (ty : EventType)
    (data : EventData) : EventDispatcher :=
  match dispatch env s ty data with
  | .ok r => r.1
  | .error _ => s

/-- A sequence of dispatch calls threaded through the state; an error
aborts the sequence as an uncaught exception would. -/
def runSeq (env : Env) : List (EventType × EventData) → EventDispatcher →
    Except Unit EventDispatcher
  | [], s => .ok s
  | ev :: rest, s => do
      let r ← dispatch env s ev.1 ev.2
      runSeq env rest r.1

/-! ### Specification-side definitions

These follow the spec's words, for comparison with the embedded code,
together with the concrete environments, listeners and states used by the
theorems. -/

/-- The candidate listeners of one dispatch call, read off the spec's
candidate-selection step: the capture list for drag events, the registry
sequence filtered by the current-pointer hit-test for other mouse events,
the unfiltered registry sequence for key events.  The state argument is
the state after the state-update step. -/
def candidates (env : Env) (s : EventDispatcher) : EventType → List EventListner
  | .MouseDragEvent => s.draggable_object_listeners
  | t =>
    if strStartsWith t.value "mouse" then
      (s.event_listeners t).filter (fun l => env.touching l.mobject s.mouse_point)
    else if strStartsWith t.value "key" then s.event_listeners t
    else []

/-- The invocation protocol in its amended reading: every candidate is
invoked in order; a return value that is exactly `False` stops the
dispatch, which returns `false` with no further candidate invoked; every
other observed return value, `None` included, becomes the running result;
the final result is the last observed value, `None` when no candidate is
invoked. -/
def protocolAmended (env : Env) (data : EventData) :
    List EventListner → Option PyVal → List EventListner × Option PyVal
  | [], running => ([], running)
  | l :: rest, _ =>
      let r := env.run l.callback l.mobject data
      if r = some (PyVal.pyBool false) then ([l], some (PyVal.pyBool false))
      else
        let p := protocolAmended env data rest r
        (l :: p.1, p.2)

/-- The invocation protocol exactly as the claim words it: a return value
that is exactly `False` stops the dispatch, which returns `false`; any
other NON-NULL return value becomes the running result, while a `None`
return leaves the running result untouched; the final result is the last
value so recorded, `None` when no candidate is invoked. -/
def protocolClaimed (env : Env) (data : EventData) :
    List EventListner → Option PyVal → List EventListner × Option PyVal
  | [], running => ([], running)
  | l :: rest, running =>
      let r := env.run l.callback l.mobject data
      if r = some (PyVal.pyBool false) then ([l], some (PyVal.pyBool false))
      else
        match r with
        | none =>
            let p := protocolClaimed env data rest running
            (l :: p.1, p.2)
        | some v =>
            let p := protocolClaimed env data rest (some v)
            (l :: p.1, p.2)

/-! ### Concrete environments and fixtures -/

def envTriv : Env where
  touching := fun _ _ => true
  run := fun _ _ _ => none

def envC1 : Env where
  touching := fun _ _ => true
  run := fun c _ _ => if c = 1 then some (PyVal.pyBool true) else none

def L1C1 : EventListner := ⟨1, .KeyPressEvent, 1⟩

def L2C1 : EventListner := ⟨2, .KeyPressEvent, 2⟩

def sC1 : EventDispatcher := add_listener (add_listener EventDispatcher.init L1C1) L2C1

def dataA : EventData := ⟨none, some "a"⟩

def envC2 : Env where
  touching := fun _ p => decide (p = ((5 : Int), (5 : Int), (0 : Int)))
  run := fun _ _ _ => none

def LdragC2 : EventListner := ⟨1, .MouseDragEvent, 1⟩

def sC2 : EventDispatcher := add_listener EventDispatcher.init LdragC2

def dataP55 : EventData := ⟨some (5, 5, 0), none⟩

def envC3 : Env where
  touching := fun _ p => decide (p = ((0 : Int), (0 : Int), (0 : Int)))
  run := fun _ _ _ => none

def L1C3 : EventListner := ⟨1, .MousePressEvent, 1⟩

def sC3 : EventDispatcher := add_listener EventDispatcher.init L1C3

def dataP00 : EventData := ⟨some (0, 0, 0), none⟩

def s1C3 : EventDispatcher := stepState envC3 sC3 .MouseMotionEvent dataP00

def s2C3 : EventDispatcher := stepState envC3 s1C3 .MousePressEvent dataP00

def envW4 : Env where
  touching := fun _ _ => false
  run := fun _ _ _ => none

def lW4 : EventListner := ⟨1, .MouseDragEvent, 1⟩

def sW4 : EventDispatcher :=
  { EventDispatcher.init with draggable_object_listeners := [lW4] }

def dataW4 : EventData := ⟨some (5, 5, 0), none⟩

def okValue (e : Except Unit (EventDispatcher × List EventListner × Option PyVal)) :
    EventDispatcher × List EventListner × Option PyVal :=
  match e with
  | .ok r => r
  | .error _ => (EventDispatcher.init, [], none)

def okState (e : Except Unit EventDispatcher) : EventDispatcher :=
  match e with
  | .ok s => s
  | .error _ => EventDispatcher.init

def dataNone : EventData := ⟨none, none⟩

def r1W5 : EventDispatcher × List EventListner × Option PyVal :=
  okValue (dispatch envTriv EventDispatcher.init .MouseReleaseEvent dataNone)

def evsW5 : List (EventType × EventData) :=
  [(.MouseMotionEvent, ⟨some (1, 1, 0), none⟩)]

def s2W5 : EventDispatcher := okState (runSeq envTriv evsW5 r1W5.1)

def dQW5 : EventData := ⟨some (2, 2, 0), none⟩

/-- The number of occurrences in a sequence comparing equal to `L`. -/
def occurrences (xs : List EventListner) (L : EventListner) : Nat :=
  (xs.filter (fun x => x = L)).length

def LC6 : EventListner := ⟨1, .KeyPressEvent, 1⟩

def sC6 : EventDispatcher := add_listener EventDispatcher.init LC6

def LW7 : EventListner := ⟨3, .MouseMotionEvent, 3⟩

/-! ### Helper lemmas and claim theorems -/

theorem invokeAll_eq_protocolAmended (env : Env) (data : EventData) :
    ∀ (ls : List EventListner) (acc : Option PyVal),
      invokeAll env data ls acc = protocolAmended env data ls acc := by
  intro ls
  induction ls with
  | nil => intro acc; rfl
  | cons l rest ih =>
      intro acc
      simp only [invokeAll, protocolAmended]
      by_cases h : env.run l.callback l.mobject data = some (PyVal.pyBool false)
      · simp [h]
      · simp [h, ih]

theorem invokeMouse_eq_protocolAmended (env : Env) (mp : Point) (data : EventData) :
    ∀ (ls : List EventListner) (acc : Option PyVal),
      invokeMouse env mp data ls acc
        = protocolAmended env data
            (ls.filter (fun l => env.touching l.mobject mp)) acc := by
  intro ls
  induction ls with
  | nil => intro acc; rfl
  | cons l rest ih =>
      intro acc
      by_cases ht : env.touching l.mobject mp
      · simp only [invokeMouse, ht, if_true, List.filter_cons, protocolAmended]
        by_cases h : env.run l.callback l.mobject data = some (PyVal.pyBool false)
        · simp [h]
        · simp [h, ih]
      · simp only [invokeMouse, ht, if_false, List.filter_cons]
        simp [ht, ih]

theorem ok_bind {α β : Type} (a : α) (f : α → Except Unit β) :
    (Except.ok a >>= f : Except Unit β) = f a := rfl

theorem error_bind {α β : Type} (f : α → Except Unit β) :
    ((Except.error () : Except Unit α) >>= f : Except Unit β) = .error () := rfl

theorem dispatch_press_capture (env : Env) (s : EventDispatcher) (data : EventData) :
    (dispatch env s .MousePressEvent data).map (fun r => r.1.draggable_object_listeners)
      = .ok ((s.event_listeners .MouseDragEvent).filter
          (fun l => env.touching l.mobject s.mouse_point)) := rfl

theorem dispatch_release (env : Env) (s : EventDispatcher) (data : EventData) :
    dispatch env s .MouseReleaseEvent data
      = .ok ({ s with draggable_object_listeners := [] },
          invokeMouse env s.mouse_point data (s.event_listeners .MouseReleaseEvent) none) := rfl

theorem dispatch_motion_some (env : Env) (s : EventDispatcher) (data : EventData)
    (p : Point) (h : data.point = some p) :
    dispatch env s .MouseMotionEvent data
      = .ok ({ s with mouse_point := p },
          invokeMouse env p data (s.event_listeners .MouseMotionEvent) none) := by
  simp only [dispatch, stateUpdate, getPoint, h, ok_bind]
  rfl

theorem dispatch_motion_none (env : Env) (s : EventDispatcher) (data : EventData)
    (h : data.point = none) :
    dispatch env s .MouseMotionEvent data = .error () := by
  simp only [dispatch, stateUpdate, getPoint, h, error_bind]

theorem dispatch_drag_some (env : Env) (s : EventDispatcher) (data : EventData)
    (p : Point) (h : data.point = some p) :
    dispatch env s .MouseDragEvent data
      = .ok ({ s with mouse_drag_point := p },
          invokeAll env data s.draggable_object_listeners none) := by
  simp only [dispatch, stateUpdate, getPoint, h, ok_bind]
  rfl

theorem dispatch_drag_none (env : Env) (s : EventDispatcher) (data : EventData)
    (h : data.point = none) :
    dispatch env s .MouseDragEvent data = .error () := by
  simp only [dispatch, stateUpdate, getPoint, h, error_bind]

theorem dispatch_keypress_some (env : Env) (s : EventDispatcher) (data : EventData)
    (sym : String) (h : data.symbol = some sym) :
    dispatch env s .KeyPressEvent data
      = .ok ({ s with pressed_keys := insert sym s.pressed_keys },
          invokeAll env data (s.event_listeners .KeyPressEvent) none) := by
  simp only [dispatch, stateUpdate, getSymbol, h, ok_bind]
  rfl

theorem dispatch_keypress_none (env : Env) (s : EventDispatcher) (data : EventData)
    (h : data.symbol = none) :
    dispatch env s .KeyPressEvent data = .error () := by
  simp only [dispatch, stateUpdate, getSymbol, h, error_bind]

theorem dispatch_keyrelease_some (env : Env) (s : EventDispatcher) (data : EventData)
    (sym : String) (h : data.symbol = some sym) :
    dispatch env s .KeyReleaseEvent data
      = .ok ({ s with pressed_keys := s.pressed_keys.erase sym },
          invokeAll env data (s.event_listeners .KeyReleaseEvent) none) := by
  simp only [dispatch, stateUpdate, getSymbol, h, ok_bind]
  rfl

theorem dispatch_keyrelease_none (env : Env) (s : EventDispatcher) (data : EventData)
    (h : data.symbol = none) :
    dispatch env s .KeyReleaseEvent data = .error () := by
  simp only [dispatch, stateUpdate, getSymbol, h, error_bind]

/-- Claim C1 (corrected): for every dispatch call and every sequence of
registered callbacks, dispatch equals the state update followed by the
invocation protocol over the candidate list, where a callback returning
exactly `False` terminates the dispatch, which returns `false` with no
further candidate invoked, and where EVERY observed return value,
`None` included (amendment: the claim said only non-null values), becomes
the running result; the final result is the last observed value, `None`
when no candidate is invoked. -/
theorem claim_C1 (env : Env) (s : EventDispatcher) (ty : EventType) (data : EventData) :
    dispatch env s ty data
      = (stateUpdate env s ty data).map
          (fun s1 => (s1, protocolAmended env data (candidates env s1 ty) none)) := by
  cases h : stateUpdate env s ty data with
  | error e =>
      cases e
      cases ty <;>
        simp only [dispatch, h, error_bind, Except.map]
  | ok s1 =>
      cases ty <;>
        simp only [dispatch, h, ok_bind, Except.map, candidates, EventType.value,
          invokeAll_eq_protocolAmended, invokeMouse_eq_protocolAmended] <;>
        rfl

/-- Claim C1, counterexample to the claim as stated: two key listeners,
the first callback returns `True`, the second returns `None`; both are
invoked, so by the claim the last NON-NULL value recorded — `True`, as
`protocolClaimed` computes — would be the result, but the code returns the
last observed value, `None`. -/
theorem claim_C1_counterexample :
    (dispatch envC1 sC1 .KeyPressEvent dataA).map (fun r => r.2.1) = .ok [L1C1, L2C1] ∧
    envC1.run L1C1.callback L1C1.mobject dataA = some (PyVal.pyBool true) ∧
    envC1.run L2C1.callback L2C1.mobject dataA = none ∧
    (dispatch envC1 sC1 .KeyPressEvent dataA).map (fun r => r.2.2) = .ok none ∧
    (protocolClaimed envC1 dataA
        (candidates envC1 (stepState envC1 sC1 .KeyPressEvent dataA) .KeyPressEvent)
        none).2 = some (PyVal.pyBool true) :=
  ⟨rfl, rfl, rfl, rfl, rfl⟩

-- C2

/-- Claim C2, counterexample to the claim as stated: one `MouseDrag`
listener whose target touches only `(5,5,0)`; `dispatch(MousePress,
point=(5,5,0))` from the initial state leaves the capture set empty,
because the hit-test runs against the stored `mouse_point = (0,0,0)`, while
the claim's filter at `P = (5,5,0)` keeps the listener. -/
theorem claim_C2_counterexample :
    (dispatch envC2 sC2 .MousePressEvent dataP55).map
        (fun r => r.1.draggable_object_listeners) = .ok [] ∧
    (sC2.event_listeners .MouseDragEvent).filter
        (fun l => envC2.touching l.mobject ((5 : Int), (5 : Int), (0 : Int)))
      = [LdragC2] :=
  ⟨rfl, rfl⟩

/-- Claim C2 (corrected): immediately after `dispatch(MousePress, data)`,
the drag capture set equals exactly the subsequence of the
`MouseDrag`-registered entries whose target is touching the dispatcher's
CURRENT `mouse_point` (amendment: the claim said the press payload's point
`P`; the code never reads the press payload), preserving registration
order. -/
theorem claim_C2 (env : Env) (s : EventDispatcher) (data : EventData) :
    (dispatch env s .MousePressEvent data).map (fun r => r.1.draggable_object_listeners)
      = .ok ((s.event_listeners .MouseDragEvent).filter
          (fun l => env.touching l.mobject s.mouse_point)) :=
  dispatch_press_capture env s data

-- C3

/-- Claim C3, counterexample to the claim as stated: in the claim's
scenario the final `dispatch(MousePress, point=(5,5,0))` was to invoke no
listener, but the code invokes `L1C3`, because `MousePress` hit-tests
against the stored `mouse_point = (0,0,0)`, which `L1C3`'s target touches,
and ignores the press payload's point. -/
theorem claim_C3_counterexample :
    s1C3.mouse_point = ((0 : Int), (0 : Int), (0 : Int)) ∧
    (dispatch envC3 sC3 .MouseMotionEvent dataP00).map (fun r => r.2.1) = .ok [] ∧
    (dispatch envC3 s1C3 .MousePressEvent dataP00).map (fun r => r.2.1) = .ok [L1C3] ∧
    (dispatch envC3 s2C3 .MousePressEvent dataP55).map (fun r => r.2.1) = .ok [L1C3] :=
  ⟨rfl, rfl, rfl, rfl⟩

/-- Claim C3 (corrected): listener `L1C3` is registered on `MousePress`
for a target touching exactly `(0,0,0)`.  Dispatching `MouseMotion` at
`(0,0,0)` sets `mouse_point` to `(0,0,0)` and invokes nothing; dispatching
`MousePress` at `(0,0,0)` invokes `L1C3` exactly once; dispatching
`MousePress` at `(5,5,0)` STILL invokes `L1C3` (amendment: the claim said
it does not; the hit-test uses the stored `mouse_point = (0,0,0)`, not the
press payload); after a further `MouseMotion` at `(5,5,0)`, a `MousePress`
at `(5,5,0)` does not invoke `L1C3`. -/
theorem claim_C3 :
    s1C3.mouse_point = ((0 : Int), (0 : Int), (0 : Int)) ∧
    (dispatch envC3 sC3 .MouseMotionEvent dataP00).map (fun r => r.2.1) = .ok [] ∧
    (dispatch envC3 s1C3 .MousePressEvent dataP00).map (fun r => r.2.1) = .ok [L1C3] ∧
    (dispatch envC3 s2C3 .MousePressEvent dataP55).map (fun r => r.2.1) = .ok [L1C3] ∧
    (dispatch envC3 (stepState envC3 s2C3 .MouseMotionEvent dataP55)
        .MousePressEvent dataP55).map (fun r => r.2.1) = .ok [] :=
  ⟨rfl, rfl, rfl, rfl, rfl⟩

theorem invokeAll_fst_of_no_stop (env : Env) (data : EventData) :
    ∀ (ls : List EventListner) (acc : Option PyVal),
      (∀ x ∈ ls, env.run x.callback x.mobject data ≠ some (PyVal.pyBool false)) →
      (invokeAll env data ls acc).1 = ls := by
  intro ls
  induction ls with
  | nil => intro acc _; rfl
  | cons l rest ih =>
      intro acc h
      have hl := h l (List.mem_cons_self l rest)
      simp only [invokeAll, if_neg hl]
      simpa using ih _ (fun x hx => h x (List.mem_cons_of_mem l hx))

theorem mem_invokeMouse_touching (env : Env) (mp : Point) (data : EventData) :
    ∀ (ls : List EventListner) (acc : Option PyVal) (l2 : EventListner),
      l2 ∈ (invokeMouse env mp data ls acc).1 →
      env.touching l2.mobject mp = true := by
  intro ls
  induction ls with
  | nil => intro acc l2 h; simp [invokeMouse] at h
  | cons l rest ih =>
      intro acc l2 h
      by_cases ht : env.touching l.mobject mp
      · simp only [invokeMouse, ht, if_true] at h
        by_cases hr : env.run l.callback l.mobject data = some (PyVal.pyBool false)
        · simp only [if_pos hr, List.mem_singleton] at h
          subst h; exact ht
        · simp only [if_neg hr, List.mem_cons] at h
          rcases h with h | h
          · subst h; exact ht
          · exact ih _ l2 h
      · simp only [invokeMouse, ht, if_false] at h
        exact ih _ l2 h

/-- Claim C4 (confirmed): a listener in the drag capture set is still
invoked by `dispatch(MouseDrag, point=Q)` after the pointer has moved to a
point `Q` outside its target's bounds (no re-hit-test on the drag path;
the stop-propagation hypothesis `hstop` is the protocol's own proviso that
no captured callback before it halts the dispatch), while `MouseMotion`
dispatched at `Q` invokes no listener whose target is not touching `Q`
(hit-test repeated on every non-drag mouse dispatch). -/
theorem claim_C4 (env : Env) (s : EventDispatcher) (l : EventListner) (Q : Point)
    (dQ dQ' : EventData)
    (hQ : dQ.point = some Q) (hQ' : dQ'.point = some Q)
    (hmem : l ∈ s.draggable_object_listeners)
    (_hout : env.touching l.mobject Q = false)
    (hstop : ∀ x ∈ s.draggable_object_listeners,
      env.run x.callback x.mobject dQ' ≠ some (PyVal.pyBool false)) :
    (∃ r, dispatch env (stepState env s .MouseMotionEvent dQ) .MouseDragEvent dQ'
        = .ok r ∧ l ∈ r.2.1) ∧
    (∀ (l2 : EventListner) r2, env.touching l2.mobject Q = false →
      dispatch env s .MouseMotionEvent dQ = .ok r2 → l2 ∉ r2.2.1) := by
  constructor
  · have hstep : stepState env s .MouseMotionEvent dQ = { s with mouse_point := Q } := by
      simp [stepState, dispatch_motion_some env s dQ Q hQ]
    rw [hstep]
    refine ⟨_, dispatch_drag_some env _ dQ' Q hQ', ?_⟩
    have : (invokeAll env dQ' s.draggable_object_listeners none).1
        = s.draggable_object_listeners :=
      invokeAll_fst_of_no_stop env dQ' s.draggable_object_listeners none hstop
    simpa [this] using hmem
  · intro l2 r2 hnt hdisp hmem2
    rw [dispatch_motion_some env s dQ Q hQ] at hdisp
    cases hdisp
    have := mem_invokeMouse_touching env Q dQ (s.event_listeners .MouseMotionEvent) none l2 hmem2
    rw [hnt] at this
    exact Bool.false_ne_true this

/-- Claim C4, witness: the theorem applied to a captured listener whose
target touches nothing at all. -/
theorem claim_C4_witness :
    (∃ r, dispatch envW4 (stepState envW4 sW4 .MouseMotionEvent dataW4) .MouseDragEvent dataW4
        = .ok r ∧ lW4 ∈ r.2.1) ∧
    (∀ (l2 : EventListner) r2, envW4.touching l2.mobject ((5 : Int), (5 : Int), (0 : Int)) = false →
      dispatch envW4 sW4 .MouseMotionEvent dataW4 = .ok r2 → l2 ∉ r2.2.1) :=
  claim_C4 envW4 sW4 lW4 ((5 : Int), (5 : Int), (0 : Int)) dataW4 dataW4 rfl rfl
    (List.mem_singleton_self lW4) rfl (by decide)

theorem pure_eq_ok {α : Type} (a : α) : (pure a : Except Unit α) = .ok a := rfl

theorem dispatch_ok_state (env : Env) (s : EventDispatcher) (ty : EventType)
    (data : EventData) (r : EventDispatcher × List EventListner × Option PyVal)
    (h : dispatch env s ty data = .ok r) :
    stateUpdate env s ty data = .ok r.1 := by
  cases hs : stateUpdate env s ty data with
  | error e =>
      cases e
      simp only [dispatch, hs, error_bind] at h
      exact Except.noConfusion h
  | ok s1 =>
      simp only [dispatch, hs, ok_bind, pure_eq_ok] at h
      by_cases h1 : ty = EventType.MouseDragEvent
      · rw [if_pos h1] at h; cases h; rfl
      · rw [if_neg h1] at h
        by_cases h2 : strStartsWith ty.value "mouse" = true
        · rw [if_pos h2] at h; cases h; rfl
        · rw [if_neg h2] at h
          by_cases h3 : strStartsWith ty.value "key" = true
          · rw [if_pos h3] at h; cases h; rfl
          · rw [if_neg h3] at h; cases h; rfl

theorem stateUpdate_preserves_empty_draggable (env : Env) (s : EventDispatcher)
    (ty : EventType) (data : EventData) (s1 : EventDispatcher)
    (hty : ty ≠ EventType.MousePressEvent)
    (hd : s.draggable_object_listeners = [])
    (h : stateUpdate env s ty data = .ok s1) :
    s1.draggable_object_listeners = [] := by
  cases ty with
  | MousePressEvent => exact absurd rfl hty
  | MouseMotionEvent =>
      cases hp : data.point with
      | none =>
          simp only [stateUpdate, getPoint, hp, error_bind] at h
          exact Except.noConfusion h
      | some p =>
          simp only [stateUpdate, getPoint, hp, ok_bind, pure_eq_ok] at h
          cases h; exact hd
  | MouseDragEvent =>
      cases hp : data.point with
      | none =>
          simp only [stateUpdate, getPoint, hp, error_bind] at h
          exact Except.noConfusion h
      | some p =>
          simp only [stateUpdate, getPoint, hp, ok_bind, pure_eq_ok] at h
          cases h; exact hd
  | KeyPressEvent =>
      cases hp : data.symbol with
      | none =>
          simp only [stateUpdate, getSymbol, hp, error_bind] at h
          exact Except.noConfusion h
      | some sym =>
          simp only [stateUpdate, getSymbol, hp, ok_bind, pure_eq_ok] at h
          cases h; exact hd
  | KeyReleaseEvent =>
      cases hp : data.symbol with
      | none =>
          simp only [stateUpdate, getSymbol, hp, error_bind] at h
          exact Except.noConfusion h
      | some sym =>
          simp only [stateUpdate, getSymbol, hp, ok_bind, pure_eq_ok] at h
          cases h; exact hd
  | MouseReleaseEvent =>
      simp only [stateUpdate, pure_eq_ok] at h
      cases h; rfl

theorem runSeq_preserves_empty_draggable (env : Env) :
    ∀ (evs : List (EventType × EventData)) (s s2 : EventDispatcher),
      (∀ ev ∈ evs, ev.1 ≠ EventType.MousePressEvent) →
      s.draggable_object_listeners = [] →
      runSeq env evs s = .ok s2 →
      s2.draggable_object_listeners = [] := by
  intro evs
  induction evs with
  | nil =>
      intro s s2 _ hd h
      simp only [runSeq] at h
      cases h; exact hd
  | cons ev rest ih =>
      intro s s2 hno hd h
      cases hdp : dispatch env s ev.1 ev.2 with
      | error e =>
          cases e
          simp only [runSeq, hdp, error_bind] at h
          exact Except.noConfusion h
      | ok r =>
          simp only [runSeq, hdp, ok_bind] at h
          have hne : ev.1 ≠ EventType.MousePressEvent :=
            hno ev (List.mem_cons_self ev rest)
          have hr : r.1.draggable_object_listeners = [] :=
            stateUpdate_preserves_empty_draggable env s ev.1 ev.2 r.1 hne hd
              (dispatch_ok_state env s ev.1 ev.2 r hdp)
          exact ih r.1 s2 (fun x hx => hno x (List.mem_cons_of_mem ev hx)) hr h

/-- Claim C5 (confirmed): after any dispatch of `MouseRelease` the drag
capture set is empty, it stays empty through any further dispatches that
contain no `MousePress`, and a subsequent `dispatch(MouseDrag, point=Q)`
invokes no callbacks and returns `None`. -/
theorem claim_C5 (env : Env) (s : EventDispatcher) (data dQ : EventData)
    (evs : List (EventType × EventData)) (s2 : EventDispatcher)
    (r1 : EventDispatcher × List EventListner × Option PyVal) (Q : Point)
    (hrel : dispatch env s .MouseReleaseEvent data = .ok r1)
    (hseq : runSeq env evs r1.1 = .ok s2)
    (hno : ∀ ev ∈ evs, ev.1 ≠ EventType.MousePressEvent)
    (hQ : dQ.point = some Q) :
    r1.1.draggable_object_listeners = [] ∧
    s2.draggable_object_listeners = [] ∧
    dispatch env s2 .MouseDragEvent dQ
      = .ok ({ s2 with mouse_drag_point := Q }, [], none) := by
  rw [dispatch_release env s data] at hrel
  cases hrel
  have h1 : (({ s with draggable_object_listeners := [] } : EventDispatcher),
      invokeMouse env s.mouse_point data (s.event_listeners .MouseReleaseEvent)
        none).1.draggable_object_listeners = [] := rfl
  have h2 : s2.draggable_object_listeners = [] :=
    runSeq_preserves_empty_draggable env evs _ s2 hno h1 hseq
  refine ⟨h1, h2, ?_⟩
  rw [dispatch_drag_some env s2 dQ Q hQ, h2]
  rfl

/-- Claim C5, witness: release from the initial state, one interleaved
mouse motion, then a drag dispatch. -/
theorem claim_C5_witness :
    r1W5.1.draggable_object_listeners = [] ∧
    s2W5.draggable_object_listeners = [] ∧
    dispatch envTriv s2W5 .MouseDragEvent dQW5
      = .ok ({ s2W5 with mouse_drag_point := ((2 : Int), (2 : Int), (0 : Int)) }, [], none) :=
  claim_C5 envTriv EventDispatcher.init dataNone dQW5 evsW5 s2W5 r1W5
    ((2 : Int), (2 : Int), (0 : Int)) rfl rfl (by decide) rfl

theorem length_filter_ne_add_occurrences (L : EventListner) :
    ∀ xs : List EventListner,
      (xs.filter (fun x => x ≠ L)).length + occurrences xs L = xs.length := by
  intro xs
  induction xs with
  | nil => rfl
  | cons x rest ih =>
      simp only [occurrences, List.filter_cons] at ih ⊢
      by_cases h : x = L
      · rw [if_neg (by simp [h]), if_pos (by simp [h])]
        simp only [List.length_cons]
        omega
      · rw [if_pos (by simp [h]), if_neg (by simp [h])]
        simp only [List.length_cons]
        omega

theorem get_listeners_count_update (s : EventDispatcher) (e : EventType)
    (xs : List EventListner) :
    get_listeners_count { s with event_listeners := fun t =>
        if t = e then xs else s.event_listeners t }
      + (s.event_listeners e).length
      = get_listeners_count s + xs.length := by
  cases e <;> simp [get_listeners_count, EventType.all] <;> omega

theorem remove_add_registry (s : EventDispatcher) (L : EventListner) :
    remove_listener (add_listener s L) L
      = { s with event_listeners := fun t =>
          if t = L.event_type
          then (s.event_listeners L.event_type ++ [L]).filter (fun x => x ≠ L)
          else s.event_listeners t } := by
  simp only [remove_listener, add_listener]
  congr 1
  funext t
  by_cases h : t = L.event_type
  · simp [h]
  · simp [h]

/-- Claim C6 (corrected): `add(E)` followed by `remove(E)` returns
`count()` to its pre-add value MINUS the number of occurrences equal to
`E` already present (amendment: the claim said it always returns to the
pre-add value, which holds exactly when no equal entry was present, since
`remove` deletes ALL equal occurrences in `E`'s category), and after the
pair of calls no occurrence of `E` remains in its category. -/
theorem claim_C6 (s : EventDispatcher) (L : EventListner) :
    get_listeners_count (remove_listener (add_listener s L) L)
        + occurrences (s.event_listeners L.event_type) L
      = get_listeners_count s ∧
    L ∉ (remove_listener (add_listener s L) L).event_listeners L.event_type := by
  constructor
  · rw [remove_add_registry]
    have hupd := get_listeners_count_update s L.event_type
      ((s.event_listeners L.event_type ++ [L]).filter (fun x => x ≠ L))
    have hlen : ((s.event_listeners L.event_type ++ [L]).filter
          (fun x => x ≠ L)).length
        = ((s.event_listeners L.event_type).filter (fun x => x ≠ L)).length := by
      simp [List.filter_append]
    have hocc := length_filter_ne_add_occurrences L (s.event_listeners L.event_type)
    omega
  · rw [remove_add_registry]
    simp [List.mem_filter]

/-- Claim C6, counterexample to the claim as stated: with one copy of the
entry already registered, `count()` is `1` before `add`, but `0` after
`add` followed by `remove`, because `remove` deletes both copies. -/
theorem claim_C6_counterexample :
    get_listeners_count sC6 = 1 ∧
    get_listeners_count (remove_listener (add_listener sC6 LC6) LC6) = 0 :=
  ⟨rfl, rfl⟩

/-- Claim C7 (confirmed): removing an entry present nowhere in the
registry is a no-op — the registry is unchanged pointwise, `count()` is
unchanged, and every other state component is untouched (the embedded
`remove_listener` is total, as the source swallows any error). -/
theorem claim_C7 (s : EventDispatcher) (L : EventListner)
    (h : ∀ t, L ∉ s.event_listeners t) :
    (∀ t, (remove_listener s L).event_listeners t = s.event_listeners t) ∧
    get_listeners_count (remove_listener s L) = get_listeners_count s ∧
    (remove_listener s L).mouse_point = s.mouse_point ∧
    (remove_listener s L).mouse_drag_point = s.mouse_drag_point ∧
    (remove_listener s L).pressed_keys = s.pressed_keys ∧
    (remove_listener s L).draggable_object_listeners
      = s.draggable_object_listeners := by
  have hpt : ∀ t, (remove_listener s L).event_listeners t = s.event_listeners t := by
    intro t
    simp only [remove_listener]
    by_cases ht : t = L.event_type
    · rw [if_pos ht]
      apply List.filter_eq_self.mpr
      intro x hx
      have hne : x ≠ L := by
        intro he
        exact h t (he ▸ hx)
      simp [hne]
    · rw [if_neg ht]
  refine ⟨hpt, ?_, rfl, rfl, rfl, rfl⟩
  simp only [get_listeners_count, EventType.all, List.map_cons, List.map_nil, hpt]

/-- Claim C7, witness: removing an entry from the freshly constructed
dispatcher. -/
theorem claim_C7_witness :
    (∀ t, (remove_listener EventDispatcher.init LW7).event_listeners t
        = EventDispatcher.init.event_listeners t) ∧
    get_listeners_count (remove_listener EventDispatcher.init LW7)
      = get_listeners_count EventDispatcher.init ∧
    (remove_listener EventDispatcher.init LW7).mouse_point
      = EventDispatcher.init.mouse_point ∧
    (remove_listener EventDispatcher.init LW7).mouse_drag_point
      = EventDispatcher.init.mouse_drag_point ∧
    (remove_listener EventDispatcher.init LW7).pressed_keys
      = EventDispatcher.init.pressed_keys ∧
    (remove_listener EventDispatcher.init LW7).draggable_object_listeners
      = EventDispatcher.init.draggable_object_listeners :=
  claim_C7 EventDispatcher.init LW7 (fun _ => List.not_mem_nil _)

/-- Claim C8 (confirmed): after `dispatch(KeyPress, symbol=s)`,
`is_key_pressed(s)` is true; after a subsequent `dispatch(KeyRelease,
symbol=s)`, it is false; and `dispatch(KeyRelease)` for a symbol not
currently held succeeds and leaves the held-key set unchanged. -/
theorem claim_C8 (env : Env) (s : EventDispatcher) (sym sym2 : String)
    (d1 d2 d3 : EventData)
    (h1 : d1.symbol = some sym) (h2 : d2.symbol = some sym)
    (h3 : d3.symbol = some sym2) (hnot : sym2 ∉ s.pressed_keys) :
    (∃ r1, dispatch env s .KeyPressEvent d1 = .ok r1 ∧
      is_key_pressed r1.1 sym = true ∧
      ∀ r2, dispatch env r1.1 .KeyReleaseEvent d2 = .ok r2 →
        is_key_pressed r2.1 sym = false) ∧
    (∃ r3, dispatch env s .KeyReleaseEvent d3 = .ok r3 ∧
      r3.1.pressed_keys = s.pressed_keys) := by
  constructor
  · refine ⟨_, dispatch_keypress_some env s d1 sym h1, ?_, ?_⟩
    · simp [is_key_pressed]
    · intro r2 hr2
      rw [dispatch_keyrelease_some env _ d2 sym h2] at hr2
      cases hr2
      simp [is_key_pressed]
  · refine ⟨_, dispatch_keyrelease_some env s d3 sym2 h3, ?_⟩
    exact Finset.erase_eq_of_not_mem hnot

/-- Claim C8, witness: pressing and releasing `"a"` and releasing the
never-pressed `"b"` on the fresh dispatcher. -/
theorem claim_C8_witness :
    (∃ r1, dispatch envTriv EventDispatcher.init .KeyPressEvent ⟨none, some "a"⟩
        = .ok r1 ∧
      is_key_pressed r1.1 "a" = true ∧
      ∀ r2, dispatch envTriv r1.1 .KeyReleaseEvent ⟨none, some "a"⟩ = .ok r2 →
        is_key_pressed r2.1 "a" = false) ∧
    (∃ r3, dispatch envTriv EventDispatcher.init .KeyReleaseEvent ⟨none, some "b"⟩
        = .ok r3 ∧
      r3.1.pressed_keys = EventDispatcher.init.pressed_keys) :=
  claim_C8 envTriv EventDispatcher.init "a" "b"
    ⟨none, some "a"⟩ ⟨none, some "a"⟩ ⟨none, some "b"⟩ rfl rfl rfl
    (Finset.not_mem_empty _)

/-- Claim C9 (confirmed): dispatching with a payload missing the field
its category requires — `point` for `MouseMotion`/`MouseDrag`, `symbol`
for `KeyPress`/`KeyRelease` — fails with an error; the embedding's error
case carries no state because the Python `KeyError` is raised while
evaluating the payload lookup, before any state is mutated, so the
dispatcher is left unchanged. -/
theorem claim_C9 (env : Env) (s : EventDispatcher) (data : EventData) :
    (data.point = none →
      dispatch env s .MouseMotionEvent data = .error () ∧
      dispatch env s .MouseDragEvent data = .error ()) ∧
    (data.symbol = none →
      dispatch env s .KeyPressEvent data = .error () ∧
      dispatch env s .KeyReleaseEvent data = .error ()) := by
  constructor
  · intro h
    exact ⟨dispatch_motion_none env s data h, dispatch_drag_none env s data h⟩
  · intro h
    exact ⟨dispatch_keypress_none env s data h, dispatch_keyrelease_none env s data h⟩

/-- Claim C9, witness: the four failing dispatches with an empty payload
on the fresh dispatcher. -/
theorem claim_C9_witness :
    dispatch envTriv EventDispatcher.init .MouseMotionEvent dataNone = .error () ∧
    dispatch envTriv EventDispatcher.init .MouseDragEvent dataNone = .error () ∧
    dispatch envTriv EventDispatcher.init .KeyPressEvent dataNone = .error () ∧
    dispatch envTriv EventDispatcher.init .KeyReleaseEvent dataNone = .error () :=
  ⟨((claim_C9 envTriv EventDispatcher.init dataNone).1 rfl).1,
   ((claim_C9 envTriv EventDispatcher.init dataNone).1 rfl).2,
   ((claim_C9 envTriv EventDispatcher.init dataNone).2 rfl).1,
   ((claim_C9 envTriv EventDispatcher.init dataNone).2 rfl).2⟩

theorem foldl_add_listener_fields :
    ∀ (ls : List EventListner) (s : EventDispatcher),
      (ls.foldl add_listener s).mouse_point = s.mouse_point ∧
      (ls.foldl add_listener s).mouse_drag_point = s.mouse_drag_point ∧
      (ls.foldl add_listener s).pressed_keys = s.pressed_keys ∧
      (ls.foldl add_listener s).draggable_object_listeners
        = s.draggable_object_listeners := by
  intro ls
  induction ls with
  | nil => intro s; exact ⟨rfl, rfl, rfl, rfl⟩
  | cons l rest ih =>
      intro s
      simpa [List.foldl, add_listener] using ih (add_listener s l)

/-- Claim C10 (confirmed): the freshly constructed dispatcher has
`mouse_point` and `mouse_drag_point` at the origin, no held keys and an
empty drag capture set; consequently a `MousePress` dispatched before any
`MouseMotion` — whatever listeners have been registered and whatever the
press payload — computes the capture set by hit-testing against the
origin. -/
theorem claim_C10 :
    EventDispatcher.init.mouse_point = ((0 : Int), (0 : Int), (0 : Int)) ∧
    EventDispatcher.init.mouse_drag_point = ((0 : Int), (0 : Int), (0 : Int)) ∧
    EventDispatcher.init.pressed_keys = ∅ ∧
    EventDispatcher.init.draggable_object_listeners = [] ∧
    ∀ (env : Env) (ls : List EventListner) (data : EventData),
      (dispatch env (ls.foldl add_listener EventDispatcher.init)
          .MousePressEvent data).map (fun r => r.1.draggable_object_listeners)
        = .ok (((ls.foldl add_listener EventDispatcher.init).event_listeners
              .MouseDragEvent).filter
            (fun l => env.touching l.mobject ((0 : Int), (0 : Int), (0 : Int)))) := by
  refine ⟨rfl, rfl, rfl, rfl, ?_⟩
  intro env ls data
  rw [dispatch_press_capture env (ls.foldl add_listener EventDispatcher.init) data,
    (foldl_add_listener_fields ls EventDispatcher.init).1]
  rfl
